import Mathlib

/-!
Verification of the query execution and federation core of the
`oci_la_mcp` Log Analytics client.

Shallow embedding of the relevant Python modules:

* `oci_client/rate_limiter.py`  (`RateLimiter.handle_rate_limit`)
* `cache/manager.py`            (`CacheManager.get/set/clear`)
* `oci_client/client.py`        (`OCILogAnalyticsClient.query`,
  `_query_all_compartments`, `_execute_single_query`,
  `_parse_query_response`, `_is_tenancy_ocid`)
* `services/query_engine.py`    (`QueryEngine._make_cache_key`,
  `QueryEngine.execute_batch`)

Stateful Python code is modelled as explicit state passing; the wall
clock (`time.time()`) and the random jitter draw are explicit
parameters; exceptions are modelled with `Except`.
-/

namespace OciLaMcp

/-! ## Rate limiter (`oci_client/rate_limiter.py`) -/

/-- Configuration fields of `RateLimiter.__init__` (defaults:
`max_retries=5`, `initial_delay=1.0`, `max_delay=30.0`). -/
structure RateLimiterConfig where
  max_retries : Nat
  initial_delay : ℚ
  max_delay : ℚ
deriving DecidableEq

/-- The exception raised by `handle_rate_limit` when retries are
exhausted.  The source raises the builtin `Exception` with a
"Max retries (...) exceeded" message; the module also defines a
class `RateLimitExceeded` ("raised when rate limit is exceeded and
retries exhausted") which `handle_rate_limit` never raises.  Both
are constructors here so the two can be distinguished. -/
inductive RLRaise where
  | genericException (maxRetries : Nat)
  | rateLimitExceededError
deriving DecidableEq

/-- `delay = min(self.initial_delay * (2 ** (self._retry_count - 1)), self.max_delay)`
computed for a given value of `self._retry_count`. -/
def backoffDelay (cfg : RateLimiterConfig) (retryCount : Nat) : ℚ :=
  min (cfg.initial_delay * 2 ^ (retryCount - 1)) cfg.max_delay

/-- `RateLimiter.handle_rate_limit`, as a transition on the retry
counter.  Input state is the current `self._retry_count`; `jitter` is
the value drawn by `random.uniform(0, delay * 0.1)`.  Returns the
total sleep delay (or the raised error) together with the new
`self._retry_count`. -/
def handleRateLimit (cfg : RateLimiterConfig) (retryCount : Nat) (jitter : ℚ) :
    Except RLRaise ℚ × Nat :=
  let rc := retryCount + 1
  if cfg.max_retries < rc then
    (.error (.genericException cfg.max_retries), 0)
  else
    (.ok (backoffDelay cfg rc + jitter), rc)

/-- Retry counter after `n` consecutive `handle_rate_limit()` calls
starting from a freshly reset limiter (jitter draws irrelevant to the
counter; taken as 0). -/
def retryCountAfter (cfg : RateLimiterConfig) : Nat → Nat
  | 0 => 0
  | n + 1 => (handleRateLimit cfg (retryCountAfter cfg n) 0).2

/-! ## Cache manager (`cache/manager.py`) -/

/-- `CacheEntry` dataclass: value, `created_at` (a `time.time()`
timestamp) and `ttl_seconds`. -/
structure CacheEntry (α : Type) where
  value : α
  created_at : ℚ
  ttl_seconds : ℚ
deriving DecidableEq

/-- State of a `CacheManager`: the enabled flag, the two category
dictionaries (`self._query_cache`, `self._schema_cache`, modelled as
association lists) and the two default TTLs. -/
structure CacheState (α : Type) where
  enabled : Bool
  query_cache : List (String × CacheEntry α)
  schema_cache : List (String × CacheEntry α)
  query_ttl : ℚ
  schema_ttl : ℚ
deriving DecidableEq

/-- Python-dict lookup on the association-list model. -/
def dictFind (d : List (String × CacheEntry α)) (k : String) :
    Option (CacheEntry α) :=
  (d.find? fun p => p.1 == k).map (·.2)

/-- Python-dict assignment `d[k] = e` (replaces any previous binding). -/
def dictInsert (d : List (String × CacheEntry α)) (k : String) (e : CacheEntry α) :
    List (String × CacheEntry α) :=
  (k, e) :: d.filter fun p => !(p.1 == k)

/-- Python-dict `del d[k]`. -/
def dictRemove (d : List (String × CacheEntry α)) (k : String) :
    List (String × CacheEntry α) :=
  d.filter fun p => !(p.1 == k)

/-- `CacheManager._is_expired`: `time.time() - entry.created_at > entry.ttl_seconds`. -/
def isExpired (now : ℚ) (e : CacheEntry α) : Bool :=
  decide (e.ttl_seconds < now - e.created_at)

/-- `CacheManager._get_cache`: the `"schema"` category gets the schema
dictionary; every other category name gets the query dictionary. -/
def getCacheDict (s : CacheState α) (category : String) :
    List (String × CacheEntry α) :=
  if category = "schema" then s.schema_cache else s.query_cache

/-- Write back the dictionary chosen by `_get_cache`. -/
def setCacheDict (s : CacheState α) (category : String)
    (d : List (String × CacheEntry α)) : CacheState α :=
  if category = "schema" then { s with schema_cache := d }
  else { s with query_cache := d }

/-- `CacheManager._get_default_ttl`. -/
def defaultTtl (s : CacheState α) (category : String) : ℚ :=
  if category = "schema" then s.schema_ttl else s.query_ttl

/-- `CacheManager.get`: returns the cached value (or `none` on a miss)
together with the state after the read — an expired entry is deleted
by the read itself. -/
def cacheGet (s : CacheState α) (now : ℚ) (key category : String) :
    Option α × CacheState α :=
  if !s.enabled then (none, s)
  else
    let cache := getCacheDict s category
    match dictFind cache key with
    | none => (none, s)
    | some e =>
      if isExpired now e then (none, setCacheDict s category (dictRemove cache key))
      else (some e.value, s)

/-- `CacheManager._cleanup`: drop every expired entry of the category. -/
def cacheCleanup (s : CacheState α) (now : ℚ) (category : String) : CacheState α :=
  setCacheDict s category
    ((getCacheDict s category).filter fun p => !isExpired now p.2)

/-- `CacheManager.set`: store the entry with the requested TTL
(`ttl_seconds or default`, so an explicit `0` falls back to the
category default), then run the cleanup pass when the category holds
more than 100 entries. -/
def cacheSet (s : CacheState α) (now : ℚ) (key : String) (value : α)
    (category : String) (ttlSeconds : Option ℚ) : CacheState α :=
  if !s.enabled then s
  else
    let ttl := match ttlSeconds with
      | some t => if t = 0 then defaultTtl s category else t
      | none => defaultTtl s category
    let cache := dictInsert (getCacheDict s category) key ⟨value, now, ttl⟩
    let s' := setCacheDict s category cache
    if 100 < cache.length then cacheCleanup s' now category else s'

/-- `CacheManager.clear`: `None` clears both categories; `"query"` and
`"schema"` clear their own dictionary; any other category name
matches no branch and clears nothing. -/
def cacheClear (s : CacheState α) (category : Option String) : CacheState α :=
  match category with
  | none => { s with query_cache := [], schema_cache := [] }
  | some c =>
    if c = "query" then { s with query_cache := [] }
    else if c = "schema" then { s with schema_cache := [] }
    else s

/-! ## Response normalization (`OCILogAnalyticsClient._parse_query_response`) -/

/-- A column descriptor of the backend response (`col.display_name`
may be `None`; falsiness of the empty string matters for
`col.display_name or col.internal_name`). -/
structure ColumnDesc where
  display_name : Option String
  internal_name : String
  value_type : String
deriving DecidableEq

/-- A column of the parsed result dictionary. -/
structure ParsedColumn where
  name : String
  internal_name : String
  vtype : String
deriving DecidableEq

/-- `{"name": col.display_name or col.internal_name, ...}`. -/
def parseColumn (c : ColumnDesc) : ParsedColumn :=
  let name := match c.display_name with
    | some s => if s = "" then c.internal_name else s
    | none => c.internal_name
  ⟨name, c.internal_name, c.value_type⟩

/-- The shapes a response item can take, as distinguished by
`_parse_query_response`: the `values` attribute may be callable (a
mapping's `.values` method or another zero-argument accessor), a
list/tuple, or any other single value; an item without a `values`
attribute is either a plain `dict` or gets skipped. -/
inductive RawItem (α : Type) where
  | accessorVals (vals : List α)
  | seqVals (vals : List α)
  | scalarVal (v : α)
  | mappingNoValuesAttr (vals : List α)
  | skipped
deriving DecidableEq

/-- The row (if any) produced for one item by the body of the
`for item in data.items` loop. -/
def normalizeItem : RawItem α → Option (List α)
  | .accessorVals vals => some vals
  | .seqVals vals => some vals
  | .scalarVal v => some [v]
  | .mappingNoValuesAttr vals => some vals
  | .skipped => none

/-- The raw backend response consumed by `_parse_query_response`:
optional column descriptors and items (absent attribute or Python
falsiness both modelled by `none`/`[]`), optional `total_count` and
`is_partial_result` attributes. -/
structure RawResponse (α : Type) where
  columns : Option (List ColumnDesc)
  items : Option (List (RawItem α))
  total_count : Option Nat
  isPartialResult : Option Bool
deriving DecidableEq

/-- The parsed result dictionary produced by `_parse_query_response`
(and by `_execute_single_query`). -/
structure QueryRes (α : Type) where
  columns : List ParsedColumn
  rows : List (List α)
  total_count : Nat
  isPartial : Bool
deriving DecidableEq

/-- `OCILogAnalyticsClient._parse_query_response`. -/
def parseQueryResponse (data : RawResponse α) : QueryRes α :=
  let columns := match data.columns with
    | some cols => if cols = [] then [] else cols.map parseColumn
    | none => []
  let rows := match data.items with
    | some [] => []
    | some its => its.filterMap normalizeItem
    | none => []
  { columns := columns
    rows := rows
    total_count := data.total_count.getD rows.length
    isPartial := data.isPartialResult.getD false }

/-! ## Query dispatch and federation (`OCILogAnalyticsClient.query`,
`_query_all_compartments`) -/

/-- `OCILogAnalyticsClient._is_tenancy_ocid`:
`ocid.startswith("ocid1.tenancy.")`. -/
def isTenancyOcid (ocid : String) : Bool :=
  "ocid1.tenancy.".toList.isPrefixOf ocid.toList

/-- Environment a query runs against: the enumeration returned by
`_get_all_compartments` and, for each `(compartment_id,
include_subcompartments)` pair, the outcome of
`_execute_single_query` (a parsed result or a raised exception). -/
structure ClientEnv (α : Type) where
  compartments : List String
  backend : String → Bool → Except String (QueryRes α)

/-- The dictionary built at the end of `_query_all_compartments`,
with its federation bookkeeping keys (`_cross_compartment_query`,
`_compartments_queried`, `_compartments_failed`). -/
structure FederatedRes (α : Type) where
  columns : List ParsedColumn
  rows : List (List α)
  total_count : Nat
  isPartial : Bool
  compartments_queried : Nat
  compartments_failed : Nat
deriving DecidableEq

/-- A `query()` return value: either the plain dictionary of a single
compartment query or the aggregated cross-compartment dictionary. -/
inductive QueryOutput (α : Type) where
  | single (r : QueryRes α)
  | federated (f : FederatedRes α)
deriving DecidableEq

/-- What a `query()` run did: whether `_get_all_compartments` was
called, and the `(compartment_id, include_subcompartments)` argument
of every `_execute_single_query` call issued. -/
structure CallTrace where
  enumerated : Bool
  backendCalls : List (String × Bool)
deriving DecidableEq

/-- Accumulator of the `for i, comp_id in enumerate(compartments)`
loop of `_query_all_compartments`. -/
structure MergeAcc (α : Type) where
  all_columns : List ParsedColumn
  all_rows : List (List α)
  total_count : Nat
  isPartial : Bool
  successful_queries : Nat
  failed_queries : Nat
deriving DecidableEq

/-- One iteration of the loop body: a successful per-compartment query
contributes columns (first non-empty ones), rows, total count and its
own is-partial flag; a raised exception only increments
`failed_queries` and the loop continues. -/
def mergeStep (env : ClientEnv α) (acc : MergeAcc α) (compId : String) : MergeAcc α :=
  match env.backend compId false with
  | .ok r =>
    { all_columns :=
        if acc.all_columns = [] ∧ r.columns ≠ [] then r.columns else acc.all_columns
      all_rows := acc.all_rows ++ r.rows
      total_count := acc.total_count + r.total_count
      isPartial := acc.isPartial || r.isPartial
      successful_queries := acc.successful_queries + 1
      failed_queries := acc.failed_queries }
  | .error _ => { acc with failed_queries := acc.failed_queries + 1 }

/-- `OCILogAnalyticsClient._query_all_compartments`: enumerate all
compartments; with an empty enumeration fall back to one single query
against the client's own compartment with
`include_subcompartments=True`; otherwise query every enumerated
compartment with the subtree flag forced off and aggregate. -/
def queryAllCompartments (env : ClientEnv α) (selfCompartmentId : String) :
    Except String (QueryOutput α) × CallTrace :=
  match env.compartments with
  | [] =>
    ((env.backend selfCompartmentId true).map .single,
      ⟨true, [(selfCompartmentId, true)]⟩)
  | c :: cs =>
    let acc := (c :: cs).foldl (mergeStep env) ⟨[], [], 0, false, 0, 0⟩
    (.ok (.federated ⟨acc.all_columns, acc.all_rows, acc.total_count,
        acc.isPartial, acc.successful_queries, acc.failed_queries⟩),
      ⟨true, (c :: cs).map fun compId => (compId, false)⟩)

/-- `OCILogAnalyticsClient.query`: dispatch to the cross-compartment
aggregation exactly when `include_subcompartments` is set and the
client's compartment is a tenancy OCID; otherwise one single
compartment query with the flag passed through. -/
def clientQuery (env : ClientEnv α) (selfCompartmentId : String)
    (includeSubcompartments : Bool) :
    Except String (QueryOutput α) × CallTrace :=
  if includeSubcompartments && isTenancyOcid selfCompartmentId then
    queryAllCompartments env selfCompartmentId
  else
    ((env.backend selfCompartmentId includeSubcompartments).map .single,
      ⟨false, [(selfCompartmentId, includeSubcompartments)]⟩)

/-- Projection used to state federation facts about a `query()`
outcome without binders. -/
def fedOf : Except String (QueryOutput α) → Option (FederatedRes α)
  | .ok (.federated f) => some f
  | _ => none

/-- Whether the per-compartment query (with the subtree flag forced
off, as in the federation loop) raises. -/
def scopeFails (env : ClientEnv α) (compId : String) : Bool :=
  match env.backend compId false with
  | .ok _ => false
  | .error _ => true

/-- The rows a compartment contributes to the aggregation: its result
rows on success, nothing on a raised exception. -/
def scopeRows (env : ClientEnv α) (compId : String) : List (List α) :=
  match env.backend compId false with
  | .ok r => r.rows
  | .error _ => []

/-- Whether a compartment query succeeds with a truncated
(`is_partial`) result. -/
def scopeTruncated (env : ClientEnv α) (compId : String) : Bool :=
  match env.backend compId false with
  | .ok r => r.isPartial
  | .error _ => false

/-- The end-to-end scenario environment of the spec: enumeration
returns three compartments; `A` returns 10 rows with total 10, `B`
returns no rows, `C` raises. -/
def envScenario : ClientEnv Nat :=
  ⟨["A", "B", "C"],
    fun compId _ =>
      if compId = "A" then
        .ok ⟨[⟨"Count", "count", "number"⟩], List.replicate 10 [1], 10, false⟩
      else if compId = "B" then .ok ⟨[], [], 0, false⟩
      else .error "ServiceError"⟩

/-- Five enumerated compartments of which two raise an access-denied
error. -/
def envFive : ClientEnv Nat :=
  ⟨["c1", "c2", "c3", "c4", "c5"],
    fun compId _ =>
      if compId = "c2" ∨ compId = "c4" then .error "NotAuthorizedOrNotFound"
      else .ok ⟨[⟨"f", "f", "string"⟩], [[1]], 1, false⟩⟩

/-- An environment for exercising the non-federated dispatch paths. -/
def envPlain : ClientEnv Nat :=
  ⟨["A"], fun _ _ => .ok ⟨[], [], 0, false⟩⟩

/-! ## Cache key (`QueryEngine._make_cache_key`)

The key is the f-string
`f"{query}:{start.isoformat()}:{end.isoformat()}:{sub_flag}:{comp}"`.
Strings are modelled as `List Char`; a `datetime` is modelled by the
colon-separated tokens of its `isoformat()` rendering (for
`2025-01-01T10:20:30+00:00` the head token `2025-01-01T10` followed by
`20`, `30+00`, `00`). -/

/-- Joining of string pieces with the `":"` separator. -/
def joinColon : List (List Char) → List Char
  | [] => []
  | [p] => p
  | p :: q :: rest => p ++ ':' :: joinColon (q :: rest)

/-- A `datetime` value as the token decomposition of its
`isoformat()` output. -/
structure IsoTime where
  headTok : List Char
  restToks : List (List Char)
deriving DecidableEq

/-- `datetime.isoformat()`. -/
def isoformat (t : IsoTime) : List Char :=
  joinColon (t.headTok :: t.restToks)

/-- The characters that can occur in an `isoformat()` token after the
first: digits, the microsecond dot and a timezone sign. -/
def isoTokChar (ch : Char) : Bool :=
  ch.isDigit || ch == '.' || ch == '+' || ch == '-'

/-- A well-formed `isoformat()` decomposition: the head token is the
date part plus hours (it contains the `T` separator and no colon) and
every later token is made of digits, dots and signs. -/
def wfIso (t : IsoTime) : Prop :=
  'T' ∈ t.headTok ∧ ':' ∉ t.headTok ∧
    ∀ tok ∈ t.restToks, ∀ ch ∈ tok, isoTokChar ch = true

instance (t : IsoTime) : Decidable (wfIso t) := by
  unfold wfIso
  infer_instance

/-- `sub_flag = "sub" if include_subcompartments else "nosub"`. -/
def subFlagTok (includeSubcompartments : Bool) : List Char :=
  if includeSubcompartments then "sub".toList else "nosub".toList

/-- `QueryEngine._make_cache_key`: `comp = compartment_id or "default"`
(so `None` and the empty string both become `"default"`), then the
five components joined with `":"`. -/
def makeCacheKey (query : List Char) (tStart tEnd : IsoTime)
    (includeSubcompartments : Bool) (compartmentId : Option (List Char)) :
    List Char :=
  let comp := match compartmentId with
    | some c => if c = [] then "default".toList else c
    | none => "default".toList
  joinColon [query, isoformat tStart, isoformat tEnd,
    subFlagTok includeSubcompartments, comp]

/-- `isoformat()` decomposition of `2025-01-01T00:00:00`. -/
def isoT1 : IsoTime := ⟨"2025-01-01T00".toList, ["00".toList, "00".toList]⟩

/-- `isoformat()` decomposition of `2025-01-02T00:00:00`. -/
def isoT2 : IsoTime := ⟨"2025-01-02T00".toList, ["00".toList, "00".toList]⟩

/-- `isoformat()` decomposition of `2025-09-09T09:09:09`. -/
def isoT9 : IsoTime := ⟨"2025-09-09T09".toList, ["09".toList, "09".toList]⟩

/-! ## Batch execution (`QueryEngine.execute_batch`) -/

/-- One element of the list `execute_batch` returns:
`{"success": True, "result": r}` or `{"success": False, "error": e}`. -/
structure BatchEntry (R : Type) where
  success : Bool
  result : Option R
  error : Option String
deriving DecidableEq

/-- `QueryEngine.execute_batch`: one `execute` task per query,
`asyncio.gather(*tasks, return_exceptions=True)` (which preserves
order and isolates each task's exception), then the parallel
success/error list. -/
def executeBatch {Q R : Type} (exec : Q → Except String R)
    (queries : List Q) : List (BatchEntry R) :=
  (queries.map exec).map fun r =>
    match r with
    | .ok v => ⟨true, some v, none⟩
    | .error e => ⟨false, none, some e⟩

end OciLaMcp

namespace OciLaMcp

/-- C6: on the k-th consecutive `handle_rate_limit()` call with
`k ≤ max_retries`, the computed delay is
`min(initial_delay * 2^(k-1), max_delay)` plus the jitter drawn in
`[0, 10%]` of that delay; the pre-jitter delays are non-decreasing in
`k`, and the total delay is at most `max_delay` plus a 10% jitter. -/
theorem backoff_growth (cfg : RateLimiterConfig) (k : Nat) (j : ℚ)
    (hk : 1 ≤ k) (hmax : k ≤ cfg.max_retries)
    (hinit : 0 ≤ cfg.initial_delay)
    (_hj0 : 0 ≤ j) (hj : j ≤ backoffDelay cfg k / 10) :
    handleRateLimit cfg (k - 1) j = (.ok (backoffDelay cfg k + j), k) ∧
    backoffDelay cfg k ≤ backoffDelay cfg (k + 1) ∧
    backoffDelay cfg k + j ≤ cfg.max_delay + cfg.max_delay / 10 := by
  have hsub : k - 1 + 1 = k := Nat.succ_pred_eq_of_pos hk
  have hle : backoffDelay cfg k ≤ cfg.max_delay := min_le_right _ _
  refine ⟨?_, ?_, ?_⟩
  · unfold handleRateLimit
    rw [hsub]
    have : ¬ cfg.max_retries < k := not_lt.mpr hmax
    simp [this]
  · unfold backoffDelay
    have h2 : cfg.initial_delay * 2 ^ (k - 1) ≤ cfg.initial_delay * 2 ^ (k + 1 - 1) := by
      apply mul_le_mul_of_nonneg_left _ hinit
      apply pow_le_pow_right₀ (by norm_num : (1 : ℚ) ≤ 2)
      omega
    exact min_le_min h2 le_rfl
  · linarith

/-! ### Cache lemmas -/

theorem getCacheDict_setCacheDict (s : CacheState α) (c : String)
    (d : List (String × CacheEntry α)) :
    getCacheDict (setCacheDict s c d) c = d := by
  by_cases h : c = "schema" <;> simp [getCacheDict, setCacheDict, h]

theorem getCacheDict_setCacheDict_other (s : CacheState α) (c1 c2 : String)
    (d : List (String × CacheEntry α)) (h : (c1 = "schema") ↔ ¬ (c2 = "schema")) :
    getCacheDict (setCacheDict s c1 d) c2 = getCacheDict s c2 := by
  by_cases h1 : c1 = "schema"
  · have h2 : ¬ c2 = "schema" := h.mp h1
    simp [getCacheDict, setCacheDict, h1, h2]
  · have h2 : c2 = "schema" := not_not.mp (fun hn => h1 (h.mpr hn))
    simp [getCacheDict, setCacheDict, h1, h2]

theorem enabled_setCacheDict (s : CacheState α) (c : String)
    (d : List (String × CacheEntry α)) :
    (setCacheDict s c d).enabled = s.enabled := by
  by_cases h : c = "schema" <;> simp [setCacheDict, h]

theorem dictFind_dictRemove (d : List (String × CacheEntry α)) (k : String) :
    dictFind (dictRemove d k) k = none := by
  induction d with
  | nil => rfl
  | cons p rest ih =>
    by_cases h : p.1 == k <;>
      simp_all [dictFind, dictRemove, List.find?]

/-- After `cacheSet` with a positive TTL on an enabled cache, the fresh
entry is present in the category dictionary (the length-triggered
cleanup pass cannot evict it since its age is 0), and the enabled flag
is unchanged. -/
theorem cacheSet_find (s : CacheState α) (t0 T : ℚ) (k cat : String) (v : α)
    (hen : s.enabled = true) (hT : 0 < T) :
    dictFind (getCacheDict (cacheSet s t0 k v cat (some T)) cat) k
      = some ⟨v, t0, T⟩ ∧
    (cacheSet s t0 k v cat (some T)).enabled = true := by
  have hT0 : ¬ T = 0 := ne_of_gt hT
  have hexp : isExpired t0 (⟨v, t0, T⟩ : CacheEntry α) = false := by
    simp only [isExpired, sub_self, decide_eq_false_iff_not, not_lt]
    exact le_of_lt hT
  unfold cacheSet
  simp only [hen, Bool.not_true, Bool.false_eq_true, if_false, hT0, if_false]
  split
  · constructor
    · rw [cacheCleanup, getCacheDict_setCacheDict, getCacheDict_setCacheDict]
      simp [dictInsert, dictFind, List.find?, List.filter, hexp]
    · rw [cacheCleanup, enabled_setCacheDict, enabled_setCacheDict, hen]
  · constructor
    · rw [getCacheDict_setCacheDict]
      simp [dictInsert, dictFind, List.find?]
    · rw [enabled_setCacheDict, hen]

/-- Witness for C6: the default-configured limiter (`max_retries=5`,
`initial_delay=1`, `max_delay=30`) at its 2nd consecutive call with a
jitter of 1/5 (which is within 10% of the base delay 2). -/
theorem backoff_growth_witness :
    (1 ≤ 2 ∧ 2 ≤ (5 : Nat) ∧ (0 : ℚ) ≤ 1 ∧ (0 : ℚ) ≤ 1 / 5 ∧
      (1 / 5 : ℚ) ≤ backoffDelay ⟨5, 1, 30⟩ 2 / 10) ∧
    (handleRateLimit ⟨5, 1, 30⟩ (2 - 1) (1 / 5)
        = (.ok (backoffDelay ⟨5, 1, 30⟩ 2 + 1 / 5), 2) ∧
      backoffDelay ⟨5, 1, 30⟩ 2 ≤ backoffDelay ⟨5, 1, 30⟩ (2 + 1) ∧
      backoffDelay ⟨5, 1, 30⟩ 2 + 1 / 5 ≤ 30 + 30 / 10) :=
  ⟨⟨by norm_num, by norm_num, by norm_num, by norm_num,
      by norm_num [backoffDelay]⟩,
    backoff_growth ⟨5, 1, 30⟩ 2 (1 / 5) (by norm_num) (by norm_num)
      (by norm_num) (by norm_num) (by norm_num [backoffDelay])⟩

/-- C8: on an enabled cache, after `set(key, value)` with TTL `T > 0`,
a `get(key)` less than `T` seconds later returns the value; a
`get(key)` more than `T` seconds later is a miss, and it is that read
that removes the expired entry — the entry is still stored right
before the read and gone from the returned state after it. -/
theorem cache_ttl_semantics (s : CacheState α) (t0 t1 t1' T : ℚ)
    (k cat : String) (v : α)
    (hen : s.enabled = true) (hT : 0 < T)
    (hfresh : t1 - t0 < T) (hstale : T < t1' - t0) :
    (cacheGet (cacheSet s t0 k v cat (some T)) t1 k cat).1 = some v ∧
    dictFind (getCacheDict (cacheSet s t0 k v cat (some T)) cat) k
      = some ⟨v, t0, T⟩ ∧
    (cacheGet (cacheSet s t0 k v cat (some T)) t1' k cat).1 = none ∧
    dictFind
      (getCacheDict (cacheGet (cacheSet s t0 k v cat (some T)) t1' k cat).2 cat)
      k = none := by
  obtain ⟨hfind, hen'⟩ := cacheSet_find s t0 T k cat v hen hT
  have hnotexp : isExpired t1 (⟨v, t0, T⟩ : CacheEntry α) = false := by
    simp only [isExpired, decide_eq_false_iff_not, not_lt]
    linarith
  have hexp : isExpired t1' (⟨v, t0, T⟩ : CacheEntry α) = true := by
    simp only [isExpired, decide_eq_true_eq]
    linarith
  refine ⟨?_, hfind, ?_, ?_⟩
  · unfold cacheGet
    simp [hen', hfind, hnotexp]
  · unfold cacheGet
    simp [hen', hfind, hexp]
  · unfold cacheGet
    simp only [hen', Bool.not_true, Bool.false_eq_true, if_false, hfind, hexp,
      if_true]
    rw [getCacheDict_setCacheDict]
    exact dictFind_dictRemove _ _

/-- Witness for C8: a fresh enabled cache, entry set at time 0 with
TTL 2, read back at time 1 (hit) and at time 3 (miss, entry evicted). -/
theorem cache_ttl_semantics_witness :
    ((⟨true, [], [], 300, 3600⟩ : CacheState Nat).enabled = true ∧
      (0 : ℚ) < 2 ∧ (1 : ℚ) - 0 < 2 ∧ (2 : ℚ) < 3 - 0) ∧
    ((cacheGet (cacheSet (⟨true, [], [], 300, 3600⟩ : CacheState Nat)
        0 "k" 7 "query" (some 2)) 1 "k" "query").1 = some 7 ∧
      dictFind (getCacheDict (cacheSet (⟨true, [], [], 300, 3600⟩ : CacheState Nat)
        0 "k" 7 "query" (some 2)) "query") "k" = some ⟨7, 0, 2⟩ ∧
      (cacheGet (cacheSet (⟨true, [], [], 300, 3600⟩ : CacheState Nat)
        0 "k" 7 "query" (some 2)) 3 "k" "query").1 = none ∧
      dictFind (getCacheDict
        (cacheGet (cacheSet (⟨true, [], [], 300, 3600⟩ : CacheState Nat)
          0 "k" 7 "query" (some 2)) 3 "k" "query").2 "query") "k" = none) :=
  ⟨⟨rfl, by norm_num, by norm_num, by norm_num⟩,
    cache_ttl_semantics (⟨true, [], [], 300, 3600⟩ : CacheState Nat)
      0 1 3 2 "k" "query" 7 rfl (by norm_num) (by norm_num) (by norm_num)⟩

/-- C10 counterexample: categories are not independent namespaces for
arbitrary names.  `_get_cache` maps every category other than
`"schema"` to the query dictionary, so a value set under category
`"query"` is returned by a `get` under the distinct category
`"other"`. -/
theorem category_namespaces_counterexample :
    ("query" : String) ≠ "other" ∧
    (cacheGet (cacheSet (⟨true, [], [], 300, 3600⟩ : CacheState Nat)
        0 "k" 7 "query" none) 1 "k" "other").1 = some 7 := by
  refine ⟨by decide, ?_⟩
  have h : isExpired (α := Nat) 1 ⟨7, 0, 300⟩ = false := by
    norm_num [isExpired]
  simp [cacheGet, cacheSet, setCacheDict, getCacheDict, dictInsert, dictFind,
    defaultTtl, List.find?, h]

/-- C10 amended: only `"schema"` is a separate namespace — every other
category name aliases the query namespace.  Isolation between two
categories holds exactly when one of them is `"schema"` and the other
is not: a `set` under `c1` is then invisible to a `get` under `c2`.
`clear("query")` empties only the query dictionary, `clear("schema")`
only the schema dictionary, and `clear` of any other name is a no-op. -/
theorem category_namespaces (s : CacheState α) (t0 t1 : ℚ)
    (k c1 c2 c : String) (v : α) (ttl? : Option ℚ)
    (hen : s.enabled = true)
    (hdiff : (c1 = "schema") ↔ ¬ (c2 = "schema"))
    (hmiss : dictFind (getCacheDict s c2) k = none)
    (hcq : c ≠ "query") (hcs : c ≠ "schema") :
    (cacheGet (cacheSet s t0 k v c1 ttl?) t1 k c2).1 = none ∧
    (cacheClear s (some "query")).schema_cache = s.schema_cache ∧
    (cacheClear s (some "query")).query_cache = [] ∧
    (cacheClear s (some "schema")).query_cache = s.query_cache ∧
    (cacheClear s (some "schema")).schema_cache = [] ∧
    cacheClear s (some c) = s := by
  have hget : getCacheDict (cacheSet s t0 k v c1 ttl?) c2 = getCacheDict s c2 := by
    unfold cacheSet
    simp only [hen, Bool.not_true, Bool.false_eq_true, if_false]
    split
    · rw [cacheCleanup, getCacheDict_setCacheDict_other _ _ _ _ hdiff,
        getCacheDict_setCacheDict_other _ _ _ _ hdiff]
    · rw [getCacheDict_setCacheDict_other _ _ _ _ hdiff]
  have hen' : (cacheSet s t0 k v c1 ttl?).enabled = true := by
    unfold cacheSet
    simp only [hen, Bool.not_true, Bool.false_eq_true, if_false]
    split
    · rw [cacheCleanup, enabled_setCacheDict, enabled_setCacheDict, hen]
    · rw [enabled_setCacheDict, hen]
  refine ⟨?_, by simp [cacheClear], by simp [cacheClear], ?_, ?_, ?_⟩
  · unfold cacheGet
    simp [hen', hget, hmiss]
  · simp [cacheClear]
  · simp [cacheClear]
  · simp [cacheClear, hcq, hcs]

/-- Witness for C10 amended: set under `"query"`, read under
`"schema"` on a fresh cache misses; clears behave per category and
`clear("other")` is a no-op. -/
theorem category_namespaces_witness :
    ((⟨true, [], [], 300, 3600⟩ : CacheState Nat).enabled = true ∧
      ((("query" : String) = "schema") ↔ ¬ (("schema" : String) = "schema")) ∧
      dictFind (getCacheDict (⟨true, [], [], 300, 3600⟩ : CacheState Nat) "schema")
        "k" = none ∧
      ("other" : String) ≠ "query" ∧ ("other" : String) ≠ "schema") ∧
    ((cacheGet (cacheSet (⟨true, [], [], 300, 3600⟩ : CacheState Nat)
        0 "k" 7 "query" none) 1 "k" "schema").1 = none ∧
      (cacheClear (⟨true, [], [], 300, 3600⟩ : CacheState Nat)
        (some "query")).schema_cache = [] ∧
      (cacheClear (⟨true, [], [], 300, 3600⟩ : CacheState Nat)
        (some "query")).query_cache = [] ∧
      (cacheClear (⟨true, [], [], 300, 3600⟩ : CacheState Nat)
        (some "schema")).query_cache = [] ∧
      (cacheClear (⟨true, [], [], 300, 3600⟩ : CacheState Nat)
        (some "schema")).schema_cache = [] ∧
      cacheClear (⟨true, [], [], 300, 3600⟩ : CacheState Nat) (some "other")
        = ⟨true, [], [], 300, 3600⟩) := by
  constructor
  · exact ⟨rfl, by simp, rfl, by decide, by decide⟩
  · exact category_namespaces (⟨true, [], [], 300, 3600⟩ : CacheState Nat)
      0 1 "k" "query" "schema" "other" 7 none rfl (by simp) rfl
      (by decide) (by decide)

/-- C7 (code bug): with the default `max_retries = 5`, five consecutive
`handle_rate_limit()` calls leave the retry counter at 5, and the 6th
call fails and resets the counter to 0 — but it fails with the builtin
`Exception` ("Max retries (5) exceeded due to rate limiting"), not with
the `RateLimitExceeded` class the module defines for exactly this
situation and documents as "raised when rate limit is exceeded and
retries exhausted". -/
theorem retry_ceiling_raises_generic_exception :
    retryCountAfter ⟨5, 1, 30⟩ 5 = 5 ∧
    handleRateLimit ⟨5, 1, 30⟩ (retryCountAfter ⟨5, 1, 30⟩ 5) 0
      = (.error (.genericException 5), 0) ∧
    RLRaise.genericException 5 ≠ RLRaise.rateLimitExceededError := by
  refine ⟨?_, ?_, by decide⟩ <;>
    simp [retryCountAfter, handleRateLimit]

/-! ### Federation loop lemmas -/

theorem foldl_mergeStep_failed (env : ClientEnv α) :
    ∀ (l : List String) (acc : MergeAcc α),
      (l.foldl (mergeStep env) acc).failed_queries
        = acc.failed_queries + l.countP (scopeFails env) := by
  intro l
  induction l with
  | nil => intro acc; simp
  | cons c cs ih =>
    intro acc
    rw [List.foldl_cons, ih, List.countP_cons]
    cases hc : env.backend c false <;>
      simp [mergeStep, scopeFails, hc] <;> omega

theorem foldl_mergeStep_successful (env : ClientEnv α) :
    ∀ (l : List String) (acc : MergeAcc α),
      (l.foldl (mergeStep env) acc).successful_queries
        = acc.successful_queries + l.countP (fun c => !scopeFails env c) := by
  intro l
  induction l with
  | nil => intro acc; simp
  | cons c cs ih =>
    intro acc
    rw [List.foldl_cons, ih, List.countP_cons]
    cases hc : env.backend c false <;>
      simp [mergeStep, scopeFails, hc] <;> omega

theorem foldl_mergeStep_rows (env : ClientEnv α) :
    ∀ (l : List String) (acc : MergeAcc α),
      (l.foldl (mergeStep env) acc).all_rows
        = acc.all_rows ++ (l.map (scopeRows env)).flatten := by
  intro l
  induction l with
  | nil => intro acc; simp
  | cons c cs ih =>
    intro acc
    rw [List.foldl_cons, ih]
    cases hc : env.backend c false <;>
      simp [mergeStep, scopeRows, hc]

theorem foldl_mergeStep_isPartial (env : ClientEnv α) :
    ∀ (l : List String) (acc : MergeAcc α),
      (l.foldl (mergeStep env) acc).isPartial
        = (acc.isPartial || l.any (scopeTruncated env)) := by
  intro l
  induction l with
  | nil => intro acc; simp
  | cons c cs ih =>
    intro acc
    rw [List.foldl_cons, ih]
    cases hc : env.backend c false <;>
      simp [mergeStep, scopeTruncated, hc, Bool.or_assoc]

/-! ### Claim theorems about dispatch and federation -/

/-- C1: `query()` enumerates compartments and dispatches to the
scatter/gather aggregation if and only if `include_subcompartments`
is set and the client's compartment is a tenancy OCID; on any other
input it performs no enumeration, issues exactly one backend call
(with the flag passed through), and returns a non-federated result. -/
theorem federation_trigger (env : ClientEnv α) (selfCompartmentId : String)
    (includeSubcompartments : Bool) :
    ((clientQuery env selfCompartmentId includeSubcompartments).2.enumerated = true
      ↔ (includeSubcompartments = true ∧ isTenancyOcid selfCompartmentId = true)) ∧
    (¬ (includeSubcompartments = true ∧ isTenancyOcid selfCompartmentId = true) →
      (clientQuery env selfCompartmentId includeSubcompartments).2.backendCalls
        = [(selfCompartmentId, includeSubcompartments)] ∧
      (clientQuery env selfCompartmentId includeSubcompartments).2.enumerated
        = false ∧
      fedOf (clientQuery env selfCompartmentId includeSubcompartments).1 = none) := by
  by_cases h : includeSubcompartments && isTenancyOcid selfCompartmentId
  · rw [Bool.and_eq_true] at h
    constructor
    · rw [clientQuery, if_pos (Bool.and_eq_true .. ▸ h)]
      unfold queryAllCompartments
      cases env.compartments <;> simp [h.1, h.2]
    · intro hn
      exact absurd h hn
  · have hn : ¬ (includeSubcompartments = true ∧ isTenancyOcid selfCompartmentId = true) := by
      rw [Bool.and_eq_true] at h
      exact h
    rw [clientQuery, if_neg h]
    refine ⟨by simpa using hn, fun _ => ⟨rfl, rfl, ?_⟩⟩
    cases env.backend selfCompartmentId includeSubcompartments <;>
      simp [fedOf, Except.map]

/-- On a non-empty enumeration, `_query_all_compartments` returns the
aggregation of the merge loop. -/
theorem queryAllCompartments_cons (env : ClientEnv α) (selfCompartmentId : String)
    (c : String) (cs : List String) (hc : env.compartments = c :: cs) :
    (queryAllCompartments env selfCompartmentId).1
      = .ok (.federated
          ⟨((c :: cs).foldl (mergeStep env) ⟨[], [], 0, false, 0, 0⟩).all_columns,
            ((c :: cs).foldl (mergeStep env) ⟨[], [], 0, false, 0, 0⟩).all_rows,
            ((c :: cs).foldl (mergeStep env) ⟨[], [], 0, false, 0, 0⟩).total_count,
            ((c :: cs).foldl (mergeStep env) ⟨[], [], 0, false, 0, 0⟩).isPartial,
            ((c :: cs).foldl (mergeStep env)
              ⟨[], [], 0, false, 0, 0⟩).successful_queries,
            ((c :: cs).foldl (mergeStep env) ⟨[], [], 0, false, 0, 0⟩).failed_queries⟩) := by
  simp only [queryAllCompartments, hc]

/-- Witness for C1: a non-tenancy compartment with
`include_subcompartments=True` does not enumerate, does not federate,
and issues exactly one backend call carrying the flag through. -/
theorem federation_trigger_witness :
    (¬ ((true : Bool) = true ∧
        isTenancyOcid "ocid1.compartment.oc1..examplecomp" = true)) ∧
    ((clientQuery envPlain "ocid1.compartment.oc1..examplecomp" true).2.backendCalls
        = [("ocid1.compartment.oc1..examplecomp", true)] ∧
      (clientQuery envPlain "ocid1.compartment.oc1..examplecomp" true).2.enumerated
        = false ∧
      fedOf (clientQuery envPlain "ocid1.compartment.oc1..examplecomp" true).1
        = none) :=
  ⟨by decide,
    (federation_trigger envPlain "ocid1.compartment.oc1..examplecomp" true).2
      (by decide)⟩

/-- C2 counterexample: in the spec's end-to-end scenario (enumeration
`[A, B, C]`; `A` gives 10 rows / total 10 / not truncated, `B` gives
0 rows, `C` raises) the aggregated dictionary has columns from `A`,
10 rows, `total_count` 10 and `_compartments_failed` 1 — but
`is_partial` is `False`, not `True` as claimed: a failed compartment
does not set the flag. -/
theorem federated_truncation_flag_counterexample :
    ((fedOf (queryAllCompartments envScenario "ocid1.tenancy.oc1..t").1).map
        (·.isPartial) = some false) ∧
    ((fedOf (queryAllCompartments envScenario "ocid1.tenancy.oc1..t").1).map
        (·.compartments_failed) = some 1) ∧
    ((fedOf (queryAllCompartments envScenario "ocid1.tenancy.oc1..t").1).map
        (·.rows) = some (List.replicate 10 [1])) ∧
    ((fedOf (queryAllCompartments envScenario "ocid1.tenancy.oc1..t").1).map
        (·.total_count) = some 10) ∧
    ((fedOf (queryAllCompartments envScenario "ocid1.tenancy.oc1..t").1).map
        (·.columns) = some [⟨"Count", "count", "number"⟩]) := by
  decide

/-- C2 amended: for every federated query over a non-empty
enumeration, the merged `is_partial` flag is true if and only if some
*successfully queried* compartment returned a truncated result; a
compartment whose query raises is counted in `_compartments_failed`
but does not set `is_partial`. -/
theorem federated_truncation_flag (env : ClientEnv α) (selfCompartmentId : String)
    (hne : env.compartments ≠ []) :
    ∃ f, (queryAllCompartments env selfCompartmentId).1 = .ok (.federated f) ∧
      (f.isPartial = true ↔ ∃ c ∈ env.compartments, scopeTruncated env c = true) ∧
      f.compartments_failed = env.compartments.countP (scopeFails env) := by
  obtain ⟨c, cs, hc⟩ := List.exists_cons_of_ne_nil hne
  refine ⟨_, queryAllCompartments_cons env selfCompartmentId c cs hc, ?_, ?_⟩
  · show ((c :: cs).foldl (mergeStep env) ⟨[], [], 0, false, 0, 0⟩).isPartial = true ↔ _
    rw [foldl_mergeStep_isPartial, Bool.false_or, List.any_eq_true, hc]
  · show ((c :: cs).foldl (mergeStep env) ⟨[], [], 0, false, 0, 0⟩).failed_queries = _
    rw [foldl_mergeStep_failed, hc]
    simp

/-- Witness for C2 amended: applied to the scenario environment. -/
theorem federated_truncation_flag_witness :
    (envScenario.compartments ≠ []) ∧
    (∃ f, (queryAllCompartments envScenario "ocid1.tenancy.oc1..t").1
        = .ok (.federated f) ∧
      (f.isPartial = true ↔
        ∃ c ∈ envScenario.compartments, scopeTruncated envScenario c = true) ∧
      f.compartments_failed
        = envScenario.compartments.countP (scopeFails envScenario)) :=
  ⟨by decide, federated_truncation_flag envScenario "ocid1.tenancy.oc1..t" (by decide)⟩

/-- C3: a federated query over a non-empty enumeration never raises;
compartments whose query raises are skipped and counted in
`_compartments_failed`, the successful ones in
`_compartments_queried`, and the merged rows are exactly the
concatenation, in enumeration order, of the successful compartments'
rows. -/
theorem federation_failure_tolerance (env : ClientEnv α) (selfCompartmentId : String)
    (hne : env.compartments ≠ []) :
    ∃ f, (queryAllCompartments env selfCompartmentId).1 = .ok (.federated f) ∧
      f.rows = (env.compartments.map (scopeRows env)).flatten ∧
      f.compartments_failed = env.compartments.countP (scopeFails env) ∧
      f.compartments_queried
        = env.compartments.countP (fun c => !scopeFails env c) := by
  obtain ⟨c, cs, hc⟩ := List.exists_cons_of_ne_nil hne
  refine ⟨_, queryAllCompartments_cons env selfCompartmentId c cs hc, ?_, ?_, ?_⟩
  · show ((c :: cs).foldl (mergeStep env) ⟨[], [], 0, false, 0, 0⟩).all_rows = _
    rw [foldl_mergeStep_rows, hc]
    simp
  · show ((c :: cs).foldl (mergeStep env) ⟨[], [], 0, false, 0, 0⟩).failed_queries = _
    rw [foldl_mergeStep_failed, hc]
    simp
  · show ((c :: cs).foldl (mergeStep env)
        ⟨[], [], 0, false, 0, 0⟩).successful_queries = _
    rw [foldl_mergeStep_successful, hc]
    simp

/-- C9 counterexample: `_parse_query_response` does not enforce
`len(row) == len(columns)` — a backend item whose `values` attribute
is a bare scalar becomes the 1-element row `[values]` even when the
response declares 2 columns. -/
theorem row_width_counterexample :
    ((parseQueryResponse (⟨some [⟨some "c1", "i1", "string"⟩,
          ⟨some "c2", "i2", "string"⟩], some [RawItem.scalarVal 5], none, none⟩
        : RawResponse Nat)).columns.length = 2) ∧
    ((parseQueryResponse (⟨some [⟨some "c1", "i1", "string"⟩,
          ⟨some "c2", "i2", "string"⟩], some [RawItem.scalarVal 5], none, none⟩
        : RawResponse Nat)).rows = [[5]]) ∧
    ¬ (∀ row ∈ (parseQueryResponse (⟨some [⟨some "c1", "i1", "string"⟩,
          ⟨some "c2", "i2", "string"⟩], some [RawItem.scalarVal 5], none, none⟩
        : RawResponse Nat)).rows,
        row.length = (parseQueryResponse (⟨some [⟨some "c1", "i1", "string"⟩,
          ⟨some "c2", "i2", "string"⟩], some [RawItem.scalarVal 5], none, none⟩
        : RawResponse Nat)).columns.length) := by
  decide

/-- C9 amended: every normalized row is a plain ordered list, and an
item delivered as a sequence, as a mapping (its `.values` method is
the callable case), or as a zero-argument accessor over the same
values normalizes to the identical row; `len(row) == len(columns)`
holds for every response whose items each carry exactly
`len(columns)` values — the client does not itself pad or truncate
mismatched rows. -/
theorem row_width_invariant (data : RawResponse α)
    (hwidth : ∀ it ∈ data.items.getD [], ∀ r, normalizeItem it = some r →
      r.length = (parseQueryResponse data).columns.length) :
    (∀ row ∈ (parseQueryResponse data).rows,
      row.length = (parseQueryResponse data).columns.length) ∧
    (∀ vals : List α,
      normalizeItem (RawItem.accessorVals vals) = some vals ∧
      normalizeItem (RawItem.seqVals vals) = some vals ∧
      normalizeItem (RawItem.mappingNoValuesAttr vals) = some vals) := by
  refine ⟨?_, fun vals => ⟨rfl, rfl, rfl⟩⟩
  intro row hrow
  have hrows : (parseQueryResponse data).rows
      = (data.items.getD []).filterMap normalizeItem := by
    show (match data.items with
        | some [] => []
        | some its => its.filterMap normalizeItem
        | none => []) = _
    match data.items with
    | none => rfl
    | some [] => rfl
    | some (it :: its) => rfl
  rw [hrows] at hrow
  obtain ⟨it, hit, hnorm⟩ := List.mem_filterMap.mp hrow
  exact hwidth it hit row hnorm

/-- Witness for C9 amended: a one-column response whose items arrive
as an accessor, a sequence and a bare scalar, each carrying one value. -/
theorem row_width_invariant_witness :
    (∀ it ∈ ((⟨some [⟨some "c", "i", "string"⟩],
        some [RawItem.accessorVals [3], RawItem.seqVals [4], RawItem.scalarVal 5,
          RawItem.skipped], none, none⟩ : RawResponse Nat)).items.getD [],
      ∀ r, normalizeItem it = some r →
        r.length = (parseQueryResponse (⟨some [⟨some "c", "i", "string"⟩],
          some [RawItem.accessorVals [3], RawItem.seqVals [4], RawItem.scalarVal 5,
            RawItem.skipped], none, none⟩ : RawResponse Nat)).columns.length) ∧
    ((∀ row ∈ (parseQueryResponse (⟨some [⟨some "c", "i", "string"⟩],
        some [RawItem.accessorVals [3], RawItem.seqVals [4], RawItem.scalarVal 5,
          RawItem.skipped], none, none⟩ : RawResponse Nat)).rows,
        row.length = (parseQueryResponse (⟨some [⟨some "c", "i", "string"⟩],
          some [RawItem.accessorVals [3], RawItem.seqVals [4], RawItem.scalarVal 5,
            RawItem.skipped], none, none⟩ : RawResponse Nat)).columns.length) ∧
      (∀ vals : List Nat,
        normalizeItem (RawItem.accessorVals vals) = some vals ∧
        normalizeItem (RawItem.seqVals vals) = some vals ∧
        normalizeItem (RawItem.mappingNoValuesAttr vals) = some vals)) :=
  ⟨by decide,
    row_width_invariant (⟨some [⟨some "c", "i", "string"⟩],
      some [RawItem.accessorVals [3], RawItem.seqVals [4], RawItem.scalarVal 5,
        RawItem.skipped], none, none⟩ : RawResponse Nat) (by decide)⟩

/-! ### Cache key lemmas -/

/-- Splitting an append at a marked boundary element: if no element of
the two prefixes satisfies `P` but both boundary elements do, the
decomposition is unique. -/
theorem append_boundary_inj {β : Type} (P : β → Prop) :
    ∀ (r1 r2 : List β) (b1 b2 : β) (m1 m2 : List β),
      (∀ t ∈ r1, ¬ P t) → (∀ t ∈ r2, ¬ P t) → P b1 → P b2 →
      r1 ++ b1 :: m1 = r2 ++ b2 :: m2 → r1 = r2 ∧ b1 = b2 ∧ m1 = m2 := by
  intro r1
  induction r1 with
  | nil =>
    intro r2 b1 b2 m1 m2 _ h2 hb1 _ heq
    cases r2 with
    | nil =>
      obtain ⟨hb, hm⟩ := List.cons.injEq .. ▸ heq
      exact ⟨rfl, hb, hm⟩
    | cons t r2' =>
      obtain ⟨hb, _⟩ := List.cons.injEq .. ▸ heq
      exact absurd (hb ▸ hb1) (h2 t (List.mem_cons_self t r2'))
  | cons t1 r1' ih =>
    intro r2 b1 b2 m1 m2 h1 h2 hb1 hb2 heq
    cases r2 with
    | nil =>
      obtain ⟨hb, _⟩ := List.cons.injEq .. ▸ heq
      exact absurd (hb ▸ hb2) (h1 t1 (List.mem_cons_self t1 r1'))
    | cons t2 r2' =>
      obtain ⟨ht, htl⟩ := List.cons.injEq .. ▸ heq
      obtain ⟨hr, hb, hm⟩ := ih r2' b1 b2 m1 m2
        (fun t ht => h1 t (List.mem_cons_of_mem _ ht))
        (fun t ht => h2 t (List.mem_cons_of_mem _ ht)) hb1 hb2 htl
      exact ⟨by rw [ht, hr], hb, hm⟩

theorem joinColon_cons (x : List Char) (l : List (List Char)) (hl : l ≠ []) :
    joinColon (x :: l) = x ++ ':' :: joinColon l := by
  cases l with
  | nil => exact absurd rfl hl
  | cons y ys => rfl

theorem joinColon_append :
    ∀ (l1 l2 : List (List Char)), l1 ≠ [] → l2 ≠ [] →
      joinColon (l1 ++ l2) = joinColon l1 ++ ':' :: joinColon l2 := by
  intro l1
  induction l1 with
  | nil => intro l2 h1 _; exact absurd rfl h1
  | cons x xs ih =>
    intro l2 _ h2
    cases xs with
    | nil => simpa using joinColon_cons x l2 h2
    | cons x' xs' =>
      rw [List.cons_append, joinColon_cons x ((x' :: xs') ++ l2)
          (by simp), ih l2 (by simp) h2,
        joinColon_cons x (x' :: xs') (by simp)]
      simp

/-- `joinColon` is injective on non-empty lists of colon-free pieces. -/
theorem joinColon_inj :
    ∀ (l1 l2 : List (List Char)),
      (∀ p ∈ l1, ':' ∉ p) → (∀ p ∈ l2, ':' ∉ p) → l1 ≠ [] → l2 ≠ [] →
      joinColon l1 = joinColon l2 → l1 = l2 := by
  intro l1
  induction l1 with
  | nil => intro l2 _ _ h1 _ _; exact absurd rfl h1
  | cons p1 t1 ih =>
    intro l2 h1 h2 _ hl2 heq
    cases l2 with
    | nil => exact absurd rfl hl2
    | cons p2 t2 =>
      cases t1 with
      | nil =>
        cases t2 with
        | nil =>
          show [p1] = [p2]
          rw [show p1 = p2 from heq]
        | cons q2 r2 =>
          rw [show joinColon [p1] = p1 from rfl,
            joinColon_cons p2 (q2 :: r2) (by simp)] at heq
          have : ':' ∈ p1 := by
            rw [heq]
            exact List.mem_append_right _ (List.mem_cons_self _ _)
          exact absurd this (h1 p1 (List.mem_cons_self _ _))
      | cons q1 r1 =>
        cases t2 with
        | nil =>
          rw [show joinColon [p2] = p2 from rfl,
            joinColon_cons p1 (q1 :: r1) (by simp)] at heq
          have : ':' ∈ p2 := by
            rw [← heq]
            exact List.mem_append_right _ (List.mem_cons_self _ _)
          exact absurd this (h2 p2 (List.mem_cons_self _ _))
        | cons q2 r2 =>
          rw [joinColon_cons p1 (q1 :: r1) (by simp),
            joinColon_cons p2 (q2 :: r2) (by simp)] at heq
          obtain ⟨hp, _, hrest⟩ := append_boundary_inj (fun ch => ch = ':')
            p1 p2 ':' ':' (joinColon (q1 :: r1)) (joinColon (q2 :: r2))
            (fun ch hch hc => h1 p1 (List.mem_cons_self _ _) (hc ▸ hch))
            (fun ch hch hc => h2 p2 (List.mem_cons_self _ _) (hc ▸ hch))
            rfl rfl heq
          have := ih (q2 :: r2)
            (fun p hp => h1 p (List.mem_cons_of_mem _ hp))
            (fun p hp => h2 p (List.mem_cons_of_mem _ hp))
            (by simp) (by simp) hrest
          rw [hp, this]

theorem isoTok_no_special (tok : List Char)
    (h : ∀ ch ∈ tok, isoTokChar ch = true) :
    ':' ∉ tok ∧ 'T' ∉ tok ∧ 'b' ∉ tok :=
  ⟨fun hm => absurd (h ':' hm) (by decide),
    fun hm => absurd (h 'T' hm) (by decide),
    fun hm => absurd (h 'b' hm) (by decide)⟩

/-- The key as the flat colon-joined token list. -/
theorem makeCacheKey_flat (q : List Char) (s e : IsoTime) (i : Bool)
    (c : List Char) (hc : c ≠ []) :
    makeCacheKey q s e i (some c)
      = joinColon (q :: ((s.headTok :: s.restToks)
          ++ ((e.headTok :: e.restToks) ++ [subFlagTok i, c]))) := by
  rw [makeCacheKey]
  simp only [if_neg hc]
  rw [joinColon_cons q ((s.headTok :: s.restToks)
      ++ ((e.headTok :: e.restToks) ++ [subFlagTok i, c])) (by simp),
    joinColon_append (s.headTok :: s.restToks)
      ((e.headTok :: e.restToks) ++ [subFlagTok i, c]) (by simp) (by simp),
    joinColon_append (e.headTok :: e.restToks) [subFlagTok i, c]
      (by simp) (by simp)]
  rfl

/-- Every token of the flattened key is colon-free when the query and
compartment are. -/
theorem key_tokens_colon_free (q : List Char) (s e : IsoTime) (i : Bool)
    (c : List Char) (hq : ':' ∉ q) (hcc : ':' ∉ c)
    (hs : wfIso s) (he : wfIso e) :
    ∀ p ∈ q :: ((s.headTok :: s.restToks)
        ++ ((e.headTok :: e.restToks) ++ [subFlagTok i, c])), ':' ∉ p := by
  intro p hp
  simp only [List.mem_cons, List.mem_append] at hp
  rcases hp with rfl | (rfl | hp) | (rfl | hp) | rfl | rfl | hcon
  · exact hq
  · exact hs.2.1
  · exact (isoTok_no_special p (hs.2.2 p hp)).1
  · exact he.2.1
  · exact (isoTok_no_special p (he.2.2 p hp)).1
  · cases i <;> decide
  · exact hcc
  · simp at hcon

/-- C4 amended: the cache key is a deterministic function of
`(query, start, end, include_subcompartments, compartment)`, and on
tuples whose query text and compartment contain no `':'` (and whose
compartment is non-empty, timestamps being well-formed `isoformat()`
renderings) it is injective: equal keys force equal tuples.  (The
unrestricted claim fails — see the collision counterexample.) -/
theorem cache_key_determinism_injectivity
    (q1 q2 : List Char) (s1 s2 e1 e2 : IsoTime) (i1 i2 : Bool)
    (c1 c2 : List Char)
    (hq1 : ':' ∉ q1) (hq2 : ':' ∉ q2) (hcc1 : ':' ∉ c1) (hcc2 : ':' ∉ c2)
    (hc1ne : c1 ≠ []) (hc2ne : c2 ≠ [])
    (hs1 : wfIso s1) (hs2 : wfIso s2) (he1 : wfIso e1) (he2 : wfIso e2)
    (hkey : makeCacheKey q1 s1 e1 i1 (some c1)
      = makeCacheKey q2 s2 e2 i2 (some c2)) :
    makeCacheKey q1 s1 e1 i1 (some c1) = makeCacheKey q1 s1 e1 i1 (some c1) ∧
    q1 = q2 ∧ s1 = s2 ∧ e1 = e2 ∧ i1 = i2 ∧ c1 = c2 := by
  rw [makeCacheKey_flat q1 s1 e1 i1 c1 hc1ne,
    makeCacheKey_flat q2 s2 e2 i2 c2 hc2ne] at hkey
  have htoks := joinColon_inj _ _
    (key_tokens_colon_free q1 s1 e1 i1 c1 hq1 hcc1 hs1 he1)
    (key_tokens_colon_free q2 s2 e2 i2 c2 hq2 hcc2 hs2 he2)
    (by simp) (by simp) hkey
  simp only [List.cons_append] at htoks
  obtain ⟨hqeq, htl⟩ := List.cons.injEq .. ▸ htoks
  obtain ⟨hshead, htl2⟩ := List.cons.injEq .. ▸ htl
  obtain ⟨hsrest, hehead, htl3⟩ := append_boundary_inj (fun tok => 'T' ∈ tok)
    s1.restToks s2.restToks e1.headTok e2.headTok _ _
    (fun t ht => (isoTok_no_special t (hs1.2.2 t ht)).2.1)
    (fun t ht => (isoTok_no_special t (hs2.2.2 t ht)).2.1)
    he1.1 he2.1 htl2
  obtain ⟨herest, hflag, hcs⟩ := append_boundary_inj (fun tok => 'b' ∈ tok)
    e1.restToks e2.restToks (subFlagTok i1) (subFlagTok i2) [c1] [c2]
    (fun t ht => (isoTok_no_special t (he1.2.2 t ht)).2.2)
    (fun t ht => (isoTok_no_special t (he2.2.2 t ht)).2.2)
    (by cases i1 <;> decide) (by cases i2 <;> decide) htl3
  have hieq : i1 = i2 := by
    cases i1 <;> cases i2 <;> revert hflag <;> decide
  obtain ⟨hceq, -⟩ := List.cons.injEq .. ▸ hcs
  have hseq : s1 = s2 := by
    cases s1; cases s2; simp_all
  have heeq : e1 = e2 := by
    cases e1; cases e2; simp_all
  exact ⟨rfl, hqeq, hseq, heeq, hieq, hceq⟩

/-- C4 counterexample: two different
`(query, start, end, include_subcompartments, compartment)` tuples
whose cache keys are the same string — the `':'` separator occurring
inside the query text and the compartment makes the five components
non-recoverable: both keys read
`a:2025-01-01T00:00:00:2025-01-02T00:00:00:nosub:c:2025-09-09T09:09:09:2025-09-09T09:09:09:nosub:c`. -/
theorem cache_key_collision_counterexample :
    makeCacheKey "a".toList isoT1 isoT2 false
        (some "c:2025-09-09T09:09:09:2025-09-09T09:09:09:nosub:c".toList)
      = makeCacheKey
          "a:2025-01-01T00:00:00:2025-01-02T00:00:00:nosub:c".toList
          isoT9 isoT9 false (some "c".toList) ∧
    "a".toList ≠ "a:2025-01-01T00:00:00:2025-01-02T00:00:00:nosub:c".toList ∧
    isoT1 ≠ isoT9 ∧
    "c:2025-09-09T09:09:09:2025-09-09T09:09:09:nosub:c".toList
      ≠ "c".toList := by
  decide

/-- Witness for C4 amended: a colon-free query and compartment with
well-formed timestamps. -/
theorem cache_key_determinism_injectivity_witness :
    (':' ∉ "star | stats count".toList ∧
      ':' ∉ "ocid1.compartment.oc1..aaa".toList ∧
      "ocid1.compartment.oc1..aaa".toList ≠ [] ∧
      wfIso isoT1 ∧ wfIso isoT2) ∧
    (makeCacheKey "star | stats count".toList isoT1 isoT2 true
        (some "ocid1.compartment.oc1..aaa".toList)
      = makeCacheKey "star | stats count".toList isoT1 isoT2 true
        (some "ocid1.compartment.oc1..aaa".toList) ∧
      "star | stats count".toList = "star | stats count".toList ∧
      isoT1 = isoT1 ∧ isoT2 = isoT2 ∧ (true : Bool) = true ∧
      "ocid1.compartment.oc1..aaa".toList
        = "ocid1.compartment.oc1..aaa".toList) :=
  ⟨⟨by decide, by decide, by decide, by decide, by decide⟩,
    cache_key_determinism_injectivity
      "star | stats count".toList "star | stats count".toList
      isoT1 isoT1 isoT2 isoT2 true true
      "ocid1.compartment.oc1..aaa".toList "ocid1.compartment.oc1..aaa".toList
      (by decide) (by decide) (by decide) (by decide) (by decide) (by decide)
      (by decide) (by decide) (by decide) (by decide) rfl⟩

/-- C5: `execute_batch` returns one entry per query, in order: the
i-th entry is `{success: True, result}` when the i-th query's
`execute` returns, and `{success: False, error}` when it raises — each
entry depends only on its own query's outcome, so one failure cannot
affect any other entry. -/
theorem batch_error_isolation {Q R : Type} (exec : Q → Except String R)
    (queries : List Q) :
    (executeBatch exec queries).length = queries.length ∧
    ∀ i : Nat, (executeBatch exec queries)[i]?
      = (queries[i]?).map fun q =>
        match exec q with
        | .ok v => ⟨true, some v, none⟩
        | .error e => ⟨false, none, some e⟩ := by
  refine ⟨by simp [executeBatch], fun i => ?_⟩
  simp only [executeBatch, List.getElem?_map]
  cases queries[i]? with
  | none => rfl
  | some q => cases exec q <;> rfl

/-- Witness for C3: applied to five compartments of which two raise
access-denied: the call returns (does not raise) and reports
`_compartments_failed = 2`. -/
theorem federation_failure_tolerance_witness :
    (envFive.compartments ≠ []) ∧
    (∃ f, (queryAllCompartments envFive "ocid1.tenancy.oc1..t").1
        = .ok (.federated f) ∧
      f.rows = (envFive.compartments.map (scopeRows envFive)).flatten ∧
      f.compartments_failed = envFive.compartments.countP (scopeFails envFive) ∧
      f.compartments_queried
        = envFive.compartments.countP (fun c => !scopeFails envFive c)) :=
  ⟨by decide, federation_failure_tolerance envFive "ocid1.tenancy.oc1..t" (by decide)⟩

end OciLaMcp
